import Mathlib

/-!
Shallow embedding of the household-management application in src/app.py
(debt ledger, context filter, shopping checkout, furniture purchase flow).
Python numbers are modelled by the rationals, Python dict lookup failure
(KeyError) by Except.error carrying the missing key, the mutable balance
dict by a function that is updated pointwise, and the in-place list
mutations of checkout and the furniture confirmation by pure functions
returning the new state document.
-/

namespace AppCasa

/-- ROOMIES configuration list from the source. -/
def ROOMIES : List String := ["Ale", "Ferb", "Fandi"]

/-- CATS_PARENTS configuration list from the source. -/
def CATS_PARENTS : List String := ["Ale", "Fandi"]

/-- A bill record, with the fields written by the three bill-creating code paths. -/
structure Bill where
  date : String
  amount : ℚ
  category : String
  description : String
  payer : String
  debtors : List String
  context : String
deriving DecidableEq, Repr

/-- A task record (created in the Responsabilidades section). -/
structure Task where
  id : String
  title : String
  assignees : List String
  status : String
  importance : Nat
  created : String
  due : String
  context : String
deriving DecidableEq, Repr

/-- A shopping-list item record. -/
structure ShoppingItem where
  name : String
  status : String
  context : String
deriving DecidableEq, Repr

/-- A furniture wish-list item record. -/
structure FurnItem where
  name : String
  estimate : ℚ
  date : String
  status : String
  context : String
deriving DecidableEq, Repr

/-- The whole persisted state document (the JSON blob in the sheet cell). -/
structure StateDoc where
  tasks : List Task
  bills : List Bill
  shopping : List ShoppingItem
  furniture : List FurnItem
deriving DecidableEq, Repr

/-- Embedding of get_context_data: the source filters a collection of the
state document by the context field; the projection argument stands for
the common access x.get of the context key of each dict. -/
def get_context_data {α : Type} (context : α → String) (l : List α)
    (context_id : String) : List α :=
  l.filter (fun x => context x = context_id)

/-- Pointwise update of the balances dict at one existing key. -/
def updBal (bal : String → ℚ) (k : String) (v : ℚ) : String → ℚ :=
  fun x => if x = k then v else bal x

/-- Inner loop of calculate_debts over the debtors of one bill.  A debtor
equal to the payer is skipped; otherwise the two dict accesses
balances[d] and balances[payer] are performed, each raising KeyError
(Except.error with the missing key) when the key was not initialised,
exactly as the Python dict does. -/
def loop_debtors (users : List String) (payer : String) (split : ℚ) :
    (String → ℚ) → List String → Except String (String → ℚ)
  | bal, [] => Except.ok bal
  | bal, d :: ds =>
    if d = payer then loop_debtors users payer split bal ds
    else if d ∈ users then
      if payer ∈ users then
        let bal1 := updBal bal d (bal d - split)
        loop_debtors users payer split (updBal bal1 payer (bal1 payer + split)) ds
      else Except.error payer
    else Except.error d

/-- Outer loop of calculate_debts over the bill list: a bill with an empty
debtor list is skipped (the continue at line 87), otherwise the split
amount is the amount divided by the number of debtors and the debtor loop
runs. -/
def loop_bills (users : List String) :
    (String → ℚ) → List Bill → Except String (String → ℚ)
  | bal, [] => Except.ok bal
  | bal, bill :: rest =>
    if bill.debtors.isEmpty then loop_bills users bal rest
    else
      match loop_debtors users bill.payer
          (bill.amount / (bill.debtors.length : ℚ)) bal bill.debtors with
      | Except.ok bal1 => loop_bills users bal1 rest
      | Except.error e => Except.error e

/-- Embedding of calculate_debts: balances start at 0 for every current
user and the bill list is folded through the two loops; the result is the
final balances function, or the first missing dict key. -/
def calculate_debts (users : List String) (bills_list : List Bill) :
    Except String (String → ℚ) :=
  loop_bills users (fun _ => 0) bills_list

/-- A bill that makes calculate_debts raise: some debtor differs from the
payer while that debtor or the payer is outside the initialised key set. -/
def billBad (users : List String) (b : Bill) : Prop :=
  ∃ d ∈ b.debtors, d ≠ b.payer ∧ (d ∉ users ∨ b.payer ∉ users)

/-- Total of the shopping cart: sum of the entered prices. -/
def cartTotal (cart : List (String × ℚ)) : ℚ :=
  (cart.map Prod.snd).sum

/-- Description string composed at checkout: each cart entry as
name (price), joined by commas, as in the source comprehension. -/
def cartDesc (cart : List (String × ℚ)) : String :=
  String.intercalate ", " (cart.map (fun kv => kv.1 ++ " (" ++ toString kv.2 ++ ")"))

/-- Inventory update loop of checkout: for every item name in the cart,
every shopping item with that name and the active context gets status
have, exactly the nested for loops of the source. -/
def mark_have (context_id : String) (shopping : List ShoppingItem)
    (cart_items : List String) : List ShoppingItem :=
  cart_items.foldl (fun l item_name =>
    l.map (fun it =>
      if it.name = item_name ∧ it.context = context_id
      then { it with status := "have" } else it)) shopping

/-- Embedding of the checkout code path: the whole block is guarded by
cart_total greater than 0 (otherwise the form is not rendered and nothing
happens); inside, one bill is appended, the inventory loop runs, and the
cart is cleared.  Returns the new state document and the new cart. -/
def checkout (data : StateDoc) (cart : List (String × ℚ)) (payer : String)
    (debtors : List String) (context_id : String) (date : String) :
    StateDoc × List (String × ℚ) :=
  let cart_total := cartTotal cart
  let cart_items := cart.map Prod.fst
  if 0 < cart_total then
    let new_bill : Bill :=
      { date := date, amount := cart_total, category := "Supermercado",
        description := cartDesc cart, payer := payer, debtors := debtors,
        context := context_id }
    ({ data with
        bills := data.bills ++ [new_bill],
        shopping := mark_have context_id data.shopping cart_items }, [])
  else (data, cart)

/-- Embedding of the manual bill form: appends one bill built from the
form fields (the amount widget of the source constrains its value to be
at least 0, which theorems take as a hypothesis on the input). -/
def add_bill (data : StateDoc) (date : String) (amount : ℚ) (category : String)
    (description : String) (payer : String) (debtors : List String)
    (context_id : String) : StateDoc :=
  { data with bills := data.bills ++
      [{ date := date, amount := amount, category := category,
         description := description, payer := payer, debtors := debtors,
         context := context_id }] }

/-- Inventory loop of the furniture confirmation.  In the source the
selected wish is a reference into the furniture list (the comprehensions
behind get_context_data and wishes copy no dicts), so each loop step
compares the loop entry with the CURRENT value of the selected entry by
the Python dict value equality: once the loop reaches the selected
position and sets its status, the referenced value changes, and later
entries are compared against the mutated value.  The reference is
modelled by the index of the entry it points to; step j compares the
entry at position j with the current value at the selected position and
sets status bought on a match, in place. -/
def furn_mark (selected : Nat) (furniture : List FurnItem) : List FurnItem :=
  (List.range furniture.length).foldl
    (fun fs j =>
      match fs[j]?, fs[selected]? with
      | some db_item, some itemCur =>
        if db_item = itemCur then fs.set j { db_item with status := "bought" }
        else fs
      | _, _ => fs)
    furniture

/-- Embedding of the furniture confirmation: one bill with the entered
real price is appended first, its description referencing the name the
selected entry has at that moment, then the furniture list is walked by
furn_mark.  The selected wish is given as the index of the list entry the
session reference points to; out of range — which cannot arise from the
app — the name defaults to the empty string and the loop matches
nothing. -/
def furn_checkout (data : StateDoc) (selected : Nat) (real_price : ℚ)
    (payer : String) (debtors : List String) (context_id : String)
    (date : String) : StateDoc :=
  let new_bill : Bill :=
    { date := date, amount := real_price, category := "Muebles",
      description := "Compra Mueble: " ++
        ((data.furniture[selected]?).map FurnItem.name).getD "",
      payer := payer, debtors := debtors, context := context_id }
  { data with
    bills := data.bills ++ [new_bill],
    furniture := furn_mark selected data.furniture }

/-- Embedding of the shopping item removal: Python list.remove deletes the
first element equal to the argument. -/
def remove_shopping (data : StateDoc) (item : ShoppingItem) : StateDoc :=
  { data with shopping := data.shopping.erase item }

/-- Sample bill list used by concrete evaluations of the ledger. -/
def demoBills : List Bill :=
  [ { date := "2026-10-01", amount := 300, category := "Comida",
      description := "mercado", payer := "Ale",
      debtors := ["Ale", "Ferb", "Fandi"], context := "house" },
    { date := "2026-10-02", amount := 50, category := "Salida",
      description := "cafe", payer := "Ferb", debtors := ["Ale"],
      context := "house" } ]

/-- A self-settled bill: its only debtor is the payer. -/
def selfBill : Bill :=
  { date := "2026-10-03", amount := 100, category := "Comida",
    description := "solo", payer := "Ale", debtors := ["Ale"],
    context := "house" }

/-- A bill with an empty debtor list. -/
def emptyDebtorsBill : Bill :=
  { date := "2026-10-04", amount := 100, category := "Comida",
    description := "nadie", payer := "Ale", debtors := [],
    context := "house" }

/-- A bill whose payer is outside every participant list while the only
debtor equals that payer. -/
def outsidePayerBill : Bill :=
  { date := "2026-10-05", amount := 100, category := "Comida",
    description := "externo", payer := "Xan", debtors := ["Xan"],
    context := "house" }

/-- The empty state document (the default structure of load_data). -/
def emptyDoc : StateDoc :=
  { tasks := [], bills := [], shopping := [], furniture := [] }

/-- A furniture wish used in concrete evaluations. -/
def sofa : FurnItem :=
  { name := "sofa", estimate := 5000, date := "Sin fecha", status := "wish",
    context := "house" }

/-- Another furniture wish used in concrete evaluations. -/
def mesa : FurnItem :=
  { name := "mesa", estimate := 2000, date := "Sin fecha", status := "wish",
    context := "house" }

/-- A shopping item in the house context. -/
def milkHouse : ShoppingItem :=
  { name := "milk", status := "buy", context := "house" }

/-- A shopping item with the same name in the cat context. -/
def milkCat : ShoppingItem :=
  { name := "milk", status := "buy", context := "cat" }

/-- A second shopping item in the house context. -/
def breadHouse : ShoppingItem :=
  { name := "bread", status := "buy", context := "house" }

/-- Concrete document with three shopping items, used by the checkout
witness. -/
def shopDoc : StateDoc :=
  { emptyDoc with shopping := [milkHouse, milkCat, breadHouse] }

/-- Concrete document with one shopping item, used by the empty-debtors
evaluation. -/
def milkDoc : StateDoc :=
  { emptyDoc with shopping := [milkHouse] }

/-- Concrete document with two value-equal furniture wishes. -/
def dupSofaDoc : StateDoc :=
  { emptyDoc with furniture := [sofa, sofa] }

/-- Concrete document with one furniture wish. -/
def mesaDoc : StateDoc :=
  { emptyDoc with furniture := [mesa] }

theorem updBal_self (bal : String → ℚ) (k : String) (v : ℚ) :
    updBal bal k v k = v := by
  simp [updBal]

theorem updBal_ne (bal : String → ℚ) (k : String) (v : ℚ) (x : String)
    (h : x ≠ k) : updBal bal k v x = bal x := by
  simp [updBal, h]

theorem map_updBal_of_not_mem (l : List String) (bal : String → ℚ)
    (k : String) (v : ℚ) (h : k ∉ l) :
    l.map (updBal bal k v) = l.map bal := by
  induction l with
  | nil => rfl
  | cons x xs ih =>
    simp only [List.mem_cons, not_or] at h
    simp only [List.map_cons]
    rw [updBal_ne bal k v x (fun hx => h.1 hx.symm), ih h.2]

theorem sum_map_updBal (l : List String) (hnd : l.Nodup) (bal : String → ℚ)
    (k : String) (v : ℚ) (hk : k ∈ l) :
    (l.map (updBal bal k v)).sum = (l.map bal).sum - bal k + v := by
  induction l with
  | nil => cases hk
  | cons x xs ih =>
    rcases List.nodup_cons.mp hnd with ⟨hx, hxs⟩
    rcases List.mem_cons.mp hk with hkx | hkxs
    · subst hkx
      simp only [List.map_cons, List.sum_cons]
      rw [updBal_self, map_updBal_of_not_mem xs bal k v hx]
      ring
    · have hxk : x ≠ k := fun h => hx (h ▸ hkxs)
      simp only [List.map_cons, List.sum_cons]
      rw [updBal_ne bal k v x hxk, ih hxs hkxs]
      ring

theorem loop_debtors_ok_sum (users : List String) (payer : String)
    (split : ℚ) (hnd : users.Nodup) (hp : payer ∈ users) (ds : List String)
    (hmem : ∀ d ∈ ds, d ∈ users) :
    ∀ bal : String → ℚ,
      ∃ bal1, loop_debtors users payer split bal ds = Except.ok bal1 ∧
        (users.map bal1).sum = (users.map bal).sum := by
  induction ds with
  | nil => exact fun bal => ⟨bal, rfl, rfl⟩
  | cons d ds ih =>
    intro bal
    have hd : d ∈ users := hmem d (List.mem_cons_self d ds)
    have hmem2 : ∀ x ∈ ds, x ∈ users :=
      fun x hx => hmem x (List.mem_cons_of_mem d hx)
    by_cases hdp : d = payer
    · obtain ⟨bal1, heq, hsum⟩ := ih hmem2 bal
      refine ⟨bal1, ?_, hsum⟩
      simp only [loop_debtors, if_pos hdp]
      exact heq
    · obtain ⟨bal3, heq, hsum⟩ :=
        ih hmem2 (updBal (updBal bal d (bal d - split)) payer
          (updBal bal d (bal d - split) payer + split))
      refine ⟨bal3, ?_, ?_⟩
      · simp only [loop_debtors, if_neg hdp, if_pos hd, if_pos hp]
        exact heq
      · rw [hsum]
        have h1 : ((users.map (updBal bal d (bal d - split)))).sum =
            (users.map bal).sum - bal d + (bal d - split) :=
          sum_map_updBal users hnd bal d _ hd
        have h2 := sum_map_updBal users hnd (updBal bal d (bal d - split))
          payer (updBal bal d (bal d - split) payer + split) hp
        rw [h2, h1]
        ring

theorem loop_bills_ok_sum (users : List String) (hnd : users.Nodup)
    (bills : List Bill)
    (hmem : ∀ b ∈ bills, b.payer ∈ users ∧ ∀ d ∈ b.debtors, d ∈ users) :
    ∀ bal : String → ℚ,
      ∃ bal1, loop_bills users bal bills = Except.ok bal1 ∧
        (users.map bal1).sum = (users.map bal).sum := by
  induction bills with
  | nil => exact fun bal => ⟨bal, rfl, rfl⟩
  | cons b rest ih =>
    intro bal
    have hb := hmem b (List.mem_cons_self b rest)
    have hrest : ∀ x ∈ rest, x.payer ∈ users ∧ ∀ d ∈ x.debtors, d ∈ users :=
      fun x hx => hmem x (List.mem_cons_of_mem b hx)
    by_cases he : b.debtors.isEmpty = true
    · obtain ⟨bal1, heq, hsum⟩ := ih hrest bal
      refine ⟨bal1, ?_, hsum⟩
      simp only [loop_bills, if_pos he]
      exact heq
    · obtain ⟨bal1, heq1, hsum1⟩ :=
        loop_debtors_ok_sum users b.payer
          (b.amount / (b.debtors.length : ℚ)) hnd hb.1 b.debtors hb.2 bal
      obtain ⟨bal2, heq2, hsum2⟩ := ih hrest bal1
      refine ⟨bal2, ?_, by rw [hsum2, hsum1]⟩
      simp only [loop_bills, if_neg he]
      rw [heq1]
      exact heq2

/-- C1: for every bill list whose payers and debtors are all drawn from the
participant set, calculate_debts succeeds and the sum of the returned
balances over the participants is exactly 0. -/
theorem calculate_debts_sum_zero (users : List String) (bills : List Bill)
    (hnd : users.Nodup)
    (hmem : ∀ b ∈ bills, b.payer ∈ users ∧ ∀ d ∈ b.debtors, d ∈ users) :
    ∃ bal, calculate_debts users bills = Except.ok bal ∧
      (users.map bal).sum = 0 := by
  obtain ⟨bal, heq, hsum⟩ := loop_bills_ok_sum users hnd bills hmem (fun _ => 0)
  refine ⟨bal, heq, ?_⟩
  rw [hsum]
  simp

/-- Witness for C1: the concrete sample bill list over the ROOMIES set. -/
theorem calculate_debts_sum_zero_witness :
    (ROOMIES.Nodup ∧
      ∀ b ∈ demoBills, b.payer ∈ ROOMIES ∧ ∀ d ∈ b.debtors, d ∈ ROOMIES) ∧
    ∃ bal, calculate_debts ROOMIES demoBills = Except.ok bal ∧
      (ROOMIES.map bal).sum = 0 :=
  ⟨⟨by decide, by decide⟩,
    calculate_debts_sum_zero ROOMIES demoBills (by decide) (by decide)⟩

theorem loop_bills_append_ok (users : List String) (l₁ l₂ : List Bill) :
    ∀ (bal bal1 : String → ℚ), loop_bills users bal l₁ = Except.ok bal1 →
      loop_bills users bal (l₁ ++ l₂) = loop_bills users bal1 l₂ := by
  induction l₁ with
  | nil =>
    intro bal bal1 h
    cases h
    rfl
  | cons b l₁ ih =>
    intro bal bal1 h
    by_cases he : b.debtors.isEmpty = true
    · simp only [loop_bills, if_pos he] at h
      simp only [List.cons_append, loop_bills, if_pos he]
      exact ih bal bal1 h
    · simp only [loop_bills, if_neg he] at h
      simp only [List.cons_append, loop_bills, if_neg he]
      cases hde : loop_debtors users b.payer
          (b.amount / (b.debtors.length : ℚ)) bal b.debtors with
      | ok balx =>
        rw [hde] at h
        exact ih balx bal1 h
      | error e =>
        rw [hde] at h
        exact Except.noConfusion h

theorem loop_bills_append_error (users : List String) (l₁ l₂ : List Bill) :
    ∀ (bal : String → ℚ) (e : String),
      loop_bills users bal l₁ = Except.error e →
      loop_bills users bal (l₁ ++ l₂) = Except.error e := by
  induction l₁ with
  | nil =>
    intro bal e h
    cases h
  | cons b l₁ ih =>
    intro bal e h
    by_cases he : b.debtors.isEmpty = true
    · simp only [loop_bills, if_pos he] at h
      simp only [List.cons_append, loop_bills, if_pos he]
      exact ih bal e h
    · simp only [loop_bills, if_neg he] at h
      simp only [List.cons_append, loop_bills, if_neg he]
      cases hde : loop_debtors users b.payer
          (b.amount / (b.debtors.length : ℚ)) bal b.debtors with
      | ok balx =>
        rw [hde] at h
        exact ih balx e h
      | error e2 =>
        rw [hde] at h
        exact h

theorem loop_bills_cons_skip_empty (users : List String) (b : Bill)
    (hb : b.debtors = []) (bal : String → ℚ) (rest : List Bill) :
    loop_bills users bal (b :: rest) = loop_bills users bal rest := by
  simp [loop_bills, hb]

theorem loop_bills_cons_skip_self (users : List String) (b : Bill)
    (hb : b.debtors = [b.payer]) (bal : String → ℚ) (rest : List Bill) :
    loop_bills users bal (b :: rest) = loop_bills users bal rest := by
  simp [loop_bills, hb, loop_debtors]

/-- C6: a bill whose debtor list is the singleton consisting of the payer
changes nothing: calculate_debts on any bill list with such a bill inserted
equals calculate_debts on the list without it. -/
theorem self_bill_noop (users : List String) (l₁ l₂ : List Bill) (b : Bill)
    (hb : b.debtors = [b.payer]) :
    calculate_debts users (l₁ ++ b :: l₂) = calculate_debts users (l₁ ++ l₂) := by
  unfold calculate_debts
  cases h : loop_bills users (fun _ => 0) l₁ with
  | ok bal =>
    rw [loop_bills_append_ok users l₁ (b :: l₂) _ bal h,
        loop_bills_append_ok users l₁ l₂ _ bal h,
        loop_bills_cons_skip_self users b hb bal l₂]
  | error e =>
    rw [loop_bills_append_error users l₁ (b :: l₂) _ e h,
        loop_bills_append_error users l₁ l₂ _ e h]

/-- Witness for C6: the concrete self-settled bill is a no-op for the
ROOMIES ledger. -/
theorem self_bill_noop_witness :
    selfBill.debtors = [selfBill.payer] ∧
    calculate_debts ROOMIES [selfBill] = calculate_debts ROOMIES [] :=
  ⟨rfl, self_bill_noop ROOMIES [] [] selfBill rfl⟩

/-- C7: a bill whose debtor list is empty is skipped before the share is
computed and contributes nothing: calculate_debts on any bill list with
such a bill inserted equals calculate_debts on the list without it. -/
theorem empty_debtors_bill_noop (users : List String) (l₁ l₂ : List Bill)
    (b : Bill) (hb : b.debtors = []) :
    calculate_debts users (l₁ ++ b :: l₂) = calculate_debts users (l₁ ++ l₂) := by
  unfold calculate_debts
  cases h : loop_bills users (fun _ => 0) l₁ with
  | ok bal =>
    rw [loop_bills_append_ok users l₁ (b :: l₂) _ bal h,
        loop_bills_append_ok users l₁ l₂ _ bal h,
        loop_bills_cons_skip_empty users b hb bal l₂]
  | error e =>
    rw [loop_bills_append_error users l₁ (b :: l₂) _ e h,
        loop_bills_append_error users l₁ l₂ _ e h]

/-- Witness for C7: the concrete bill without debtors is a no-op for the
ROOMIES ledger. -/
theorem empty_debtors_bill_noop_witness :
    emptyDebtorsBill.debtors = [] ∧
    calculate_debts ROOMIES [emptyDebtorsBill] = calculate_debts ROOMIES [] :=
  ⟨rfl, empty_debtors_bill_noop ROOMIES [] [] emptyDebtorsBill rfl⟩

theorem loop_debtors_ok_of_good (users : List String) (payer : String)
    (split : ℚ) (ds : List String)
    (hgood : ∀ d ∈ ds, d ≠ payer → d ∈ users ∧ payer ∈ users) :
    ∀ bal, ∃ bal1, loop_debtors users payer split bal ds = Except.ok bal1 := by
  induction ds with
  | nil => exact fun bal => ⟨bal, rfl⟩
  | cons d ds ih =>
    intro bal
    have hds : ∀ x ∈ ds, x ≠ payer → x ∈ users ∧ payer ∈ users :=
      fun x hx => hgood x (List.mem_cons_of_mem d hx)
    by_cases hdp : d = payer
    · obtain ⟨bal1, heq⟩ := ih hds bal
      refine ⟨bal1, ?_⟩
      simp only [loop_debtors, if_pos hdp]
      exact heq
    · obtain ⟨hd, hp⟩ := hgood d (List.mem_cons_self d ds) hdp
      obtain ⟨bal1, heq⟩ := ih hds (updBal (updBal bal d (bal d - split)) payer
        (updBal bal d (bal d - split) payer + split))
      refine ⟨bal1, ?_⟩
      simp only [loop_debtors, if_neg hdp, if_pos hd, if_pos hp]
      exact heq

theorem loop_debtors_error_of_bad (users : List String) (payer : String)
    (split : ℚ) :
    ∀ ds : List String,
      (∃ d ∈ ds, d ≠ payer ∧ (d ∉ users ∨ payer ∉ users)) →
      ∀ bal, ∃ e, loop_debtors users payer split bal ds = Except.error e := by
  intro ds
  induction ds with
  | nil =>
    rintro ⟨d, hd, _⟩
    cases hd
  | cons d ds ih =>
    rintro ⟨x, hx, hxp, hxu⟩ bal
    rcases List.mem_cons.mp hx with hxd | hxds
    · subst hxd
      by_cases hdu : x ∈ users
      · have hpu2 : payer ∉ users := by
          rcases hxu with h | h
          · exact absurd hdu h
          · exact h
        exact ⟨payer, by
          simp only [loop_debtors, if_neg hxp, if_pos hdu, if_neg hpu2]⟩
      · exact ⟨x, by simp only [loop_debtors, if_neg hxp, if_neg hdu]⟩
    · by_cases hdp : d = payer
      · obtain ⟨e, he⟩ := ih ⟨x, hxds, hxp, hxu⟩ bal
        refine ⟨e, ?_⟩
        simp only [loop_debtors, if_pos hdp]
        exact he
      · by_cases hdu : d ∈ users
        · by_cases hpu : payer ∈ users
          · obtain ⟨e, he⟩ := ih ⟨x, hxds, hxp, hxu⟩
              (updBal (updBal bal d (bal d - split)) payer
                (updBal bal d (bal d - split) payer + split))
            refine ⟨e, ?_⟩
            simp only [loop_debtors, if_neg hdp, if_pos hdu, if_pos hpu]
            exact he
          · exact ⟨payer, by
              simp only [loop_debtors, if_neg hdp, if_pos hdu, if_neg hpu]⟩
        · exact ⟨d, by simp only [loop_debtors, if_neg hdp, if_neg hdu]⟩

theorem loop_bills_ok_of_good (users : List String) :
    ∀ bills : List Bill, (∀ b ∈ bills, ¬ billBad users b) →
      ∀ bal, ∃ bal1, loop_bills users bal bills = Except.ok bal1 := by
  intro bills
  induction bills with
  | nil => exact fun _ bal => ⟨bal, rfl⟩
  | cons b rest ih =>
    intro hgood bal
    have hrest : ∀ x ∈ rest, ¬ billBad users x :=
      fun x hx => hgood x (List.mem_cons_of_mem b hx)
    by_cases he : b.debtors.isEmpty = true
    · obtain ⟨bal1, heq⟩ := ih hrest bal
      refine ⟨bal1, ?_⟩
      simp only [loop_bills, if_pos he]
      exact heq
    · have hg : ∀ d ∈ b.debtors, d ≠ b.payer → d ∈ users ∧ b.payer ∈ users := by
        intro d hd hdp
        by_contra hcon
        rw [not_and_or] at hcon
        exact hgood b (List.mem_cons_self b rest) ⟨d, hd, hdp, hcon⟩
      obtain ⟨bal1, heq1⟩ := loop_debtors_ok_of_good users b.payer
        (b.amount / (b.debtors.length : ℚ)) b.debtors hg bal
      obtain ⟨bal2, heq2⟩ := ih hrest bal1
      refine ⟨bal2, ?_⟩
      simp only [loop_bills, if_neg he]
      rw [heq1]
      exact heq2

theorem loop_bills_error_of_bad (users : List String) :
    ∀ bills : List Bill, (∃ b ∈ bills, billBad users b) →
      ∀ bal, ∃ e, loop_bills users bal bills = Except.error e := by
  intro bills
  induction bills with
  | nil =>
    rintro ⟨b, hb, _⟩
    cases hb
  | cons b rest ih =>
    rintro ⟨x, hx, hxbad⟩ bal
    by_cases hbbad : billBad users b
    · obtain ⟨d, hd, hdp, hdu⟩ := hbbad
      have hne : ¬ b.debtors.isEmpty = true := by
        cases hdl : b.debtors with
        | nil =>
          rw [hdl] at hd
          cases hd
        | cons y ys => simp [hdl]
      obtain ⟨e, he⟩ := loop_debtors_error_of_bad users b.payer
        (b.amount / (b.debtors.length : ℚ)) b.debtors ⟨d, hd, hdp, hdu⟩ bal
      refine ⟨e, ?_⟩
      simp only [loop_bills, if_neg hne]
      rw [he]
    · have hxrest : x ∈ rest := by
        rcases List.mem_cons.mp hx with h | h
        · exact absurd (h ▸ hxbad) hbbad
        · exact h
      by_cases he : b.debtors.isEmpty = true
      · obtain ⟨e, heq⟩ := ih ⟨x, hxrest, hxbad⟩ bal
        refine ⟨e, ?_⟩
        simp only [loop_bills, if_pos he]
        exact heq
      · have hg : ∀ d ∈ b.debtors, d ≠ b.payer → d ∈ users ∧ b.payer ∈ users := by
          intro d hd hdp
          by_contra hcon
          rw [not_and_or] at hcon
          exact hbbad ⟨d, hd, hdp, hcon⟩
        obtain ⟨bal1, heq1⟩ := loop_debtors_ok_of_good users b.payer
          (b.amount / (b.debtors.length : ℚ)) b.debtors hg bal
        obtain ⟨e, heq2⟩ := ih ⟨x, hxrest, hxbad⟩ bal1
        refine ⟨e, ?_⟩
        simp only [loop_bills, if_neg he]
        rw [heq1]
        exact heq2

/-- C10 amended: calculate_debts raises a KeyError exactly when some bill
has a debtor different from its payer such that that debtor or the payer
is outside the participant set.  In particular a bill whose payer is
outside the set while every debtor equals the payer raises nothing, so
membership of the payer alone is not enough to force an error. -/
theorem calculate_debts_error_iff (users : List String) (bills : List Bill) :
    (∃ e, calculate_debts users bills = Except.error e) ↔
      ∃ b ∈ bills, ∃ d ∈ b.debtors, d ≠ b.payer ∧
        (d ∉ users ∨ b.payer ∉ users) := by
  constructor
  · rintro ⟨e, he⟩
    by_contra hno
    push_neg at hno
    have hgood : ∀ b ∈ bills, ¬ billBad users b := by
      intro b hb ⟨d, hd, hdp, hdu⟩
      rcases hdu with h | h
      · rcases hno b hb d hd hdp with ⟨h1, _⟩
        exact h h1
      · rcases hno b hb d hd hdp with ⟨_, h2⟩
        exact h h2
    obtain ⟨bal, hb⟩ := loop_bills_ok_of_good users bills hgood (fun _ => 0)
    rw [calculate_debts, hb] at he
    cases he
  · intro hbad
    exact loop_bills_error_of_bad users bills hbad (fun _ => 0)

/-- C10 counterexample: a bill list containing a bill whose payer is not a
participant does not always raise a KeyError — when the only debtor equals
that payer, calculate_debts succeeds with the untouched zero balances. -/
theorem calculate_debts_outside_payer_ok :
    calculate_debts ["Ale"] [outsidePayerBill] = Except.ok (fun _ => 0) ∧
      outsidePayerBill.payer ∉ ["Ale"] :=
  ⟨rfl, by decide⟩

theorem mark_one_then (ctx n : String) (ns : List String) (it : ShoppingItem) :
    (fun x : ShoppingItem =>
        if x.name ∈ ns ∧ x.context = ctx then { x with status := "have" } else x)
      (if it.name = n ∧ it.context = ctx then { it with status := "have" } else it) =
    (if it.name ∈ n :: ns ∧ it.context = ctx
      then { it with status := "have" } else it) := by
  by_cases hc : it.context = ctx
  · by_cases hn : it.name = n
    · simp [hn, hc, List.mem_cons]
    · by_cases hm : it.name ∈ ns
      · simp [hn, hc, hm, List.mem_cons]
      · simp [hn, hc, hm, List.mem_cons]
  · simp [hc]

theorem mark_have_eq_map (ctx : String) (names : List String) :
    ∀ l : List ShoppingItem,
      mark_have ctx l names = l.map (fun it =>
        if it.name ∈ names ∧ it.context = ctx
        then { it with status := "have" } else it) := by
  induction names with
  | nil =>
    intro l
    simp [mark_have]
  | cons n ns ih =>
    intro l
    have h1 : mark_have ctx l (n :: ns) = mark_have ctx
        (l.map fun it => if it.name = n ∧ it.context = ctx
          then { it with status := "have" } else it) ns := rfl
    rw [h1, ih, List.map_map]
    exact List.map_congr_left (fun it _ => mark_one_then ctx n ns it)

theorem get_context_data_map_mark (ctx c2 : String) (h : c2 ≠ ctx)
    (names : List String) (l : List ShoppingItem) :
    get_context_data ShoppingItem.context
      (l.map (fun it => if it.name ∈ names ∧ it.context = ctx
        then { it with status := "have" } else it)) c2 =
    get_context_data ShoppingItem.context l c2 := by
  induction l with
  | nil => rfl
  | cons it l ih =>
    simp only [List.map_cons]
    by_cases hcond : it.name ∈ names ∧ it.context = ctx
    · rw [if_pos hcond]
      have hC : ¬ it.context = c2 := by
        rw [hcond.2]
        exact fun hh => h hh.symm
      simp only [get_context_data, List.filter_cons] at ih ⊢
      simp only [ShoppingItem.context] at *
      simp [hC, ih]
    · rw [if_neg hcond]
      simp only [get_context_data, List.filter_cons] at ih ⊢
      rw [ih]

/-- C4: a checkout with positive cart total appends exactly one bill whose
amount is the sum of the cart prices with category Supermercado, the given
payer, debtors and context, clears the cart, sets status have on exactly
the shopping items whose name is in the cart and whose context is the
active one, and leaves the slice of every other context untouched. -/
theorem checkout_success_spec (data : StateDoc) (cart : List (String × ℚ))
    (payer : String) (debtors : List String) (ctx date : String)
    (hne : cart ≠ []) (hpos : 0 < cartTotal cart) :
    (checkout data cart payer debtors ctx date).1.bills =
      data.bills ++
        [{ date := date, amount := cartTotal cart, category := "Supermercado",
           description := cartDesc cart, payer := payer, debtors := debtors,
           context := ctx }] ∧
    (checkout data cart payer debtors ctx date).2 = [] ∧
    (checkout data cart payer debtors ctx date).1.shopping =
      data.shopping.map (fun it =>
        if it.name ∈ cart.map Prod.fst ∧ it.context = ctx
        then { it with status := "have" } else it) ∧
    (∀ c2 : String, c2 ≠ ctx →
      get_context_data ShoppingItem.context
          (checkout data cart payer debtors ctx date).1.shopping c2 =
        get_context_data ShoppingItem.context data.shopping c2) := by
  have hc : checkout data cart payer debtors ctx date =
      ({ data with
         bills := data.bills ++
           [{ date := date, amount := cartTotal cart,
              category := "Supermercado", description := cartDesc cart,
              payer := payer, debtors := debtors, context := ctx }],
         shopping := mark_have ctx data.shopping (cart.map Prod.fst) }, []) := by
    simp only [checkout]
    rw [if_pos hpos]
  refine ⟨by rw [hc], by rw [hc], ?_, ?_⟩
  · rw [hc]
    exact mark_have_eq_map ctx (cart.map Prod.fst) data.shopping
  · intro c2 hc2
    rw [hc]
    show get_context_data ShoppingItem.context
        (mark_have ctx data.shopping (cart.map Prod.fst)) c2 = _
    rw [mark_have_eq_map ctx (cart.map Prod.fst) data.shopping]
    exact get_context_data_map_mark ctx c2 hc2 (cart.map Prod.fst) data.shopping

/-- Witness for C4: the concrete cart of the spec example. -/
theorem checkout_success_spec_witness :
    (([("milk", (100 : ℚ)), ("bread", (50 : ℚ))] : List (String × ℚ)) ≠ [] ∧
      0 < cartTotal [("milk", (100 : ℚ)), ("bread", (50 : ℚ))]) ∧
    ((checkout shopDoc [("milk", (100 : ℚ)), ("bread", (50 : ℚ))] "Ale"
        ["Ale", "Ferb", "Fandi"] "house" "2026-10-12").1.bills =
      shopDoc.bills ++
        [{ date := "2026-10-12",
           amount := cartTotal [("milk", (100 : ℚ)), ("bread", (50 : ℚ))],
           category := "Supermercado",
           description := cartDesc [("milk", (100 : ℚ)), ("bread", (50 : ℚ))],
           payer := "Ale", debtors := ["Ale", "Ferb", "Fandi"],
           context := "house" }] ∧
      (checkout shopDoc [("milk", (100 : ℚ)), ("bread", (50 : ℚ))] "Ale"
        ["Ale", "Ferb", "Fandi"] "house" "2026-10-12").2 = [] ∧
      (checkout shopDoc [("milk", (100 : ℚ)), ("bread", (50 : ℚ))] "Ale"
        ["Ale", "Ferb", "Fandi"] "house" "2026-10-12").1.shopping =
        shopDoc.shopping.map (fun it =>
          if it.name ∈ ([("milk", (100 : ℚ)), ("bread", (50 : ℚ))] :
              List (String × ℚ)).map Prod.fst ∧ it.context = "house"
          then { it with status := "have" } else it) ∧
      (∀ c2 : String, c2 ≠ "house" →
        get_context_data ShoppingItem.context
            (checkout shopDoc [("milk", (100 : ℚ)), ("bread", (50 : ℚ))] "Ale"
              ["Ale", "Ferb", "Fandi"] "house" "2026-10-12").1.shopping c2 =
          get_context_data ShoppingItem.context shopDoc.shopping c2)) :=
  ⟨⟨by decide, by norm_num [cartTotal]⟩,
    checkout_success_spec shopDoc
      [("milk", (100 : ℚ)), ("bread", (50 : ℚ))] "Ale" ["Ale", "Ferb", "Fandi"]
      "house" "2026-10-12" (by decide) (by norm_num [cartTotal])⟩

/-- C3 amended: checkout is a no-op whenever the cart total is 0 (the form
is only rendered for a positive total); an empty debtor list, by contrast,
is not rejected by the code. -/
theorem checkout_zero_total_noop (data : StateDoc) (cart : List (String × ℚ))
    (payer : String) (debtors : List String) (ctx date : String)
    (h : cartTotal cart = 0) :
    checkout data cart payer debtors ctx date = (data, cart) := by
  simp [checkout, h]

/-- Witness for C3: a cart with one zero-priced entry leaves everything
unchanged. -/
theorem checkout_zero_total_noop_witness :
    cartTotal [("milk", (0 : ℚ))] = 0 ∧
    checkout emptyDoc [("milk", (0 : ℚ))] "Ale" ["Ale", "Ferb"] "house"
        "2026-10-12" = (emptyDoc, [("milk", (0 : ℚ))]) :=
  ⟨by norm_num [cartTotal], checkout_zero_total_noop emptyDoc
    [("milk", (0 : ℚ))] "Ale" ["Ale", "Ferb"] "house" "2026-10-12"
    (by norm_num [cartTotal])⟩

/-- C3 counterexample: with positive cart total and an empty debtor list
the checkout is not a no-op: a bill with an empty debtor list is appended
and the shopping item still flips to have. -/
theorem checkout_empty_debtors_creates_bill :
    ((checkout milkDoc [("milk", (100 : ℚ))] "Ale" [] "house"
        "2026-10-12").1.bills.map Bill.debtors) = [[]] ∧
    ((checkout milkDoc [("milk", (100 : ℚ))] "Ale" [] "house"
        "2026-10-12").1.shopping.map ShoppingItem.status) = ["have"] := by
  have hpos : 0 < cartTotal [("milk", (100 : ℚ))] := by norm_num [cartTotal]
  constructor
  · simp only [checkout]
    rw [if_pos hpos]
    rfl
  · simp only [checkout]
    rw [if_pos hpos]
    rfl

/-- C5 amended: the manual bill form appends a bill with the entered
amount, which the input widget keeps at least 0; checkout appends only
bills with strictly positive amount; the furniture confirmation appends a
bill whose amount is exactly the entered real price, with no validation,
so a negative entered price produces a negative bill amount. -/
theorem bill_amount_policy_amended (data : StateDoc) (date : String)
    (amount : ℚ) (category description payer : String)
    (debtors : List String) (ctx : String) (cart : List (String × ℚ))
    (selected : Nat) (real_price : ℚ)
    (hamount : 0 ≤ amount) :
    (∀ b ∈ (add_bill data date amount category description payer debtors ctx).bills,
      b ∈ data.bills ∨ 0 ≤ b.amount) ∧
    (∀ b ∈ (checkout data cart payer debtors ctx date).1.bills,
      b ∈ data.bills ∨ 0 < b.amount) ∧
    (∀ b ∈ (furn_checkout data selected real_price payer debtors ctx date).bills,
      b ∈ data.bills ∨ b.amount = real_price) := by
  refine ⟨?_, ?_, ?_⟩
  · intro b hb
    simp only [add_bill, List.mem_append, List.mem_singleton] at hb
    rcases hb with h | h
    · exact Or.inl h
    · right
      rw [h]
      exact hamount
  · intro b hb
    by_cases hpos : 0 < cartTotal cart
    · simp only [checkout] at hb
      rw [if_pos hpos] at hb
      simp only [List.mem_append, List.mem_singleton] at hb
      rcases hb with h | h
      · exact Or.inl h
      · right
        rw [h]
        exact hpos
    · simp only [checkout] at hb
      rw [if_neg hpos] at hb
      exact Or.inl hb
  · intro b hb
    simp only [furn_checkout, List.mem_append, List.mem_singleton] at hb
    rcases hb with h | h
    · exact Or.inl h
    · right
      rw [h]

/-- Witness for C5: the amended policy at concrete inputs. -/
theorem bill_amount_policy_amended_witness :
    (0 : ℚ) ≤ 100 ∧
    ((∀ b ∈ (add_bill emptyDoc "2026-10-12" 100 "Comida" "mercado" "Ale"
        ["Ale", "Ferb"] "house").bills, b ∈ emptyDoc.bills ∨ 0 ≤ b.amount) ∧
    (∀ b ∈ (checkout emptyDoc [("milk", (100 : ℚ))] "Ale" ["Ale", "Ferb"]
        "house" "2026-10-12").1.bills, b ∈ emptyDoc.bills ∨ 0 < b.amount) ∧
    (∀ b ∈ (furn_checkout emptyDoc 0 4500 "Ale" ["Ale", "Ferb"] "house"
        "2026-10-12").bills, b ∈ emptyDoc.bills ∨ b.amount = 4500)) :=
  ⟨by decide, bill_amount_policy_amended emptyDoc "2026-10-12" 100 "Comida"
    "mercado" "Ale" ["Ale", "Ferb"] "house" [("milk", (100 : ℚ))] 0 4500
    (by decide)⟩

/-- C5 counterexample: the furniture confirmation performs no amount
validation, so a negative entered price puts a bill with negative amount
into the state document. -/
theorem furn_checkout_negative_amount :
    ((furn_checkout mesaDoc 0 (-100) "Ale" ["Ferb"] "house"
        "2026-10-12").bills.map Bill.amount) = [(-100 : ℚ)] ∧
    ((-100 : ℚ) < 0) :=
  ⟨rfl, by decide⟩

/-- C2: the furniture confirmation matches the purchased entry by the
Python dict value equality against the live selected reference.  The
selected entry itself always flips; with two value-equal wishes the
outcome depends on the position of the selected one: confirming the
second (index 1) also flips the first, which is compared against the
still-unmutated reference value, while confirming the first (index 0)
leaves the second alone, since by then the referenced value is already
bought.  The claim that only the selected entry ever flips therefore
fails at index 1; the bill itself is appended with the entered real
price, category Muebles and a description referencing the item name, as
the claim states. -/
theorem furn_checkout_value_equality_bug :
    ((furn_checkout dupSofaDoc 1 4500 "Ale" ["Ale", "Fandi"] "house"
        "2026-10-12").furniture.map FurnItem.status) = ["bought", "bought"] ∧
    ((furn_checkout dupSofaDoc 0 4500 "Ale" ["Ale", "Fandi"] "house"
        "2026-10-12").furniture.map FurnItem.status) = ["bought", "wish"] ∧
    ((furn_checkout dupSofaDoc 1 4500 "Ale" ["Ale", "Fandi"] "house"
        "2026-10-12").bills.map Bill.amount) = [(4500 : ℚ)] ∧
    ((furn_checkout dupSofaDoc 1 4500 "Ale" ["Ale", "Fandi"] "house"
        "2026-10-12").bills.map Bill.category) = ["Muebles"] ∧
    ((furn_checkout dupSofaDoc 1 4500 "Ale" ["Ale", "Fandi"] "house"
        "2026-10-12").bills.map Bill.description) = ["Compra Mueble: sofa"] :=
  ⟨rfl, rfl, rfl, rfl, rfl⟩

/-- C8: get_context_data returns exactly the subsequence of the entries
whose context field equals the requested context id — it is a sublist of
the collection (so the original relative order is preserved), an entry
value occurs in it exactly as often as in the collection when its context
matches and never otherwise — and applying it twice with the same context
yields the same subsequence as applying it once. -/
theorem get_context_data_spec {α : Type} [DecidableEq α] (context : α → String)
    (l : List α) (c : String) :
    (get_context_data context l c).Sublist l ∧
    (∀ x, x ∈ get_context_data context l c ↔ x ∈ l ∧ context x = c) ∧
    (∀ x, (get_context_data context l c).count x =
      if context x = c then l.count x else 0) ∧
    get_context_data context (get_context_data context l c) c =
      get_context_data context l c := by
  refine ⟨List.filter_sublist l, ?_, ?_, ?_⟩
  · intro x
    simp [get_context_data, List.mem_filter]
  · intro x
    by_cases hx : context x = c
    · rw [if_pos hx, get_context_data]
      exact List.count_filter (by simpa using hx)
    · rw [if_neg hx]
      refine List.count_eq_zero.mpr ?_
      intro hmem
      rw [get_context_data, List.mem_filter] at hmem
      exact hx (by simpa using hmem.2)
  · simp only [get_context_data, List.filter_filter]
    simp

theorem get_context_data_erase (c2 : String) (item : ShoppingItem)
    (h : ¬ item.context = c2) :
    ∀ l : List ShoppingItem,
      get_context_data ShoppingItem.context (l.erase item) c2 =
        get_context_data ShoppingItem.context l c2 := by
  intro l
  induction l with
  | nil => rfl
  | cons x xs ih =>
    by_cases hx : x = item
    · subst hx
      simp [List.erase_cons, get_context_data, List.filter_cons, h]
    · rw [List.erase_cons, if_neg (by simpa using hx)]
      simp only [get_context_data, List.filter_cons] at ih ⊢
      rw [ih]

/-- C9: removing a shopping item (Python list.remove) deletes exactly one
occurrence of that item value from the shopping collection — the length
drops by one, the count of the removed value drops by one, every other
value keeps its count — and the slice of every context other than the
context of the removed item, including a same-named item filed there, is
untouched, as are the bills, tasks and furniture collections. -/
theorem remove_shopping_frame (data : StateDoc) (item : ShoppingItem)
    (c2 : String) (hmem : item ∈ data.shopping) (hc : item.context ≠ c2) :
    (remove_shopping data item).shopping.length + 1 = data.shopping.length ∧
    (remove_shopping data item).shopping.count item + 1 =
      data.shopping.count item ∧
    (∀ x : ShoppingItem, x ≠ item →
      (remove_shopping data item).shopping.count x = data.shopping.count x) ∧
    (remove_shopping data item).bills = data.bills ∧
    (remove_shopping data item).tasks = data.tasks ∧
    (remove_shopping data item).furniture = data.furniture ∧
    get_context_data ShoppingItem.context
        (remove_shopping data item).shopping c2 =
      get_context_data ShoppingItem.context data.shopping c2 := by
  have hlen := List.length_erase_of_mem hmem
  have hpos : 0 < data.shopping.length := List.length_pos_of_mem hmem
  refine ⟨?_, ?_, ?_, rfl, rfl, rfl, ?_⟩
  · show (data.shopping.erase item).length + 1 = data.shopping.length
    rw [hlen]
    omega
  · show (data.shopping.erase item).count item + 1 = data.shopping.count item
    rw [List.count_erase_self]
    have hcp : 0 < data.shopping.count item := List.count_pos_iff.mpr hmem
    omega
  · intro x hx
    exact List.count_erase_of_ne hx data.shopping
  · exact get_context_data_erase c2 item hc data.shopping

/-- Witness for C9: removing the house milk item from the concrete
document leaves the cat slice, which holds a same-named item, unchanged. -/
theorem remove_shopping_frame_witness :
    (milkHouse ∈ shopDoc.shopping ∧ milkHouse.context ≠ "cat") ∧
    ((remove_shopping shopDoc milkHouse).shopping.length + 1 =
        shopDoc.shopping.length ∧
      (remove_shopping shopDoc milkHouse).shopping.count milkHouse + 1 =
        shopDoc.shopping.count milkHouse ∧
      (∀ x : ShoppingItem, x ≠ milkHouse →
        (remove_shopping shopDoc milkHouse).shopping.count x =
          shopDoc.shopping.count x) ∧
      (remove_shopping shopDoc milkHouse).bills = shopDoc.bills ∧
      (remove_shopping shopDoc milkHouse).tasks = shopDoc.tasks ∧
      (remove_shopping shopDoc milkHouse).furniture = shopDoc.furniture ∧
      get_context_data ShoppingItem.context
          (remove_shopping shopDoc milkHouse).shopping "cat" =
        get_context_data ShoppingItem.context shopDoc.shopping "cat") :=
  ⟨⟨by decide, by decide⟩,
    remove_shopping_frame shopDoc milkHouse "cat" (by decide) (by decide)⟩

end AppCasa
